import Mathlib

/-
Verification of the parametric primitive and scene export engine of
src/evb_lan9692_model.py against its specification.

Geometry is embedded exactly over the rationals.  Where the program calls
trigonometric functions, the embedding takes the table of cosine and sine
values as an explicit parameter named trig, with trig k standing for
(cos (2 pi k / sections), sin (2 pi k / sections)); everything else is exact.
-/

namespace EvbLan9692

abbrev Vec3 := ℚ × ℚ × ℚ

abbrev Color := ℕ × ℕ × ℕ × ℕ

/-- A triangulated colored solid, as produced by trimesh primitives:
vertex positions, triangle index triples, and one RGBA color per face. -/
structure Mesh where
  vertices : List Vec3
  faces : List (ℕ × ℕ × ℕ)
  faceColors : List Color
deriving DecidableEq

/-- Vector addition used by apply_translation. -/
def addV (v t : Vec3) : Vec3 := (v.1 + t.1, v.2.1 + t.2.1, v.2.2 + t.2.2)

/-- m.apply_translation(pos): add pos to every vertex. -/
def applyTranslation (t : Vec3) (m : Mesh) : Mesh :=
  { m with vertices := m.vertices.map fun v => addV v t }

/-- m.visual.face_colors = color: broadcast one RGBA color to every face. -/
def setFaceColors (c : Color) (m : Mesh) : Mesh :=
  { m with faceColors := List.replicate m.faces.length c }

/-- Apply a point map to every vertex, as m.apply_transform does for a
rotation matrix. -/
def mapVerts (f : Vec3 → Vec3) (m : Mesh) : Mesh :=
  { m with vertices := m.vertices.map f }

/-- trimesh.creation.box(extents=[w,h,d]): the axis aligned box centered at
the origin, corner vertices in the binary order of the trimesh template. -/
def boxVertices (w h d : ℚ) : List Vec3 :=
  [(-(w/2), -(h/2), -(d/2)), (-(w/2), -(h/2), d/2),
   (-(w/2), h/2, -(d/2)), (-(w/2), h/2, d/2),
   (w/2, -(h/2), -(d/2)), (w/2, -(h/2), d/2),
   (w/2, h/2, -(d/2)), (w/2, h/2, d/2)]

/-- The 12 triangles of the trimesh box template. -/
def boxFaces : List (ℕ × ℕ × ℕ) :=
  [(1,3,0), (4,1,0), (0,3,2), (2,4,0), (1,7,3), (5,1,4),
   (5,7,1), (3,7,2), (6,4,2), (2,7,6), (6,5,4), (7,5,6)]

/-- cbox from the source, line 58: box(extents=[w,h,d]), apply_translation(pos),
then face_colors = color.  No argument validation is performed. -/
def cbox (w h d : ℚ) (color : Color) (pos : Vec3) : Mesh :=
  setFaceColors color (applyTranslation pos ⟨boxVertices w h d, boxFaces, []⟩)

/-- The bounding box property of claim C1: every vertex lies in
pos plus or minus half extent on each axis, and both extreme corners are
attained, so the vertex bounding box is exactly the stated one. -/
def boxSpans (w h d : ℚ) (c : Color) (p : Vec3) : Prop :=
  (∀ v ∈ (cbox w h d c p).vertices,
      p.1 - w/2 ≤ v.1 ∧ v.1 ≤ p.1 + w/2 ∧
      p.2.1 - h/2 ≤ v.2.1 ∧ v.2.1 ≤ p.2.1 + h/2 ∧
      p.2.2 - d/2 ≤ v.2.2 ∧ v.2.2 ≤ p.2.2 + d/2) ∧
  (p.1 - w/2, p.2.1 - h/2, p.2.2 - d/2) ∈ (cbox w h d c p).vertices ∧
  (p.1 + w/2, p.2.1 + h/2, p.2.2 + d/2) ∈ (cbox w h d c p).vertices

/-- C1: for every positive width, height, depth and every position, cbox
returns a solid whose vertex bounding box has exactly extents (w,h,d)
centered at the given position. -/
theorem box_bbox_extents (w h d : ℚ) (c : Color) (p : Vec3)
    (hw : 0 < w) (hh : 0 < h) (hd : 0 < d) : boxSpans w h d c p := by
  unfold boxSpans cbox setFaceColors applyTranslation boxVertices
  refine ⟨?_, ?_, ?_⟩
  · intro v hv
    simp only [List.map_cons, List.map_nil, List.mem_cons, List.not_mem_nil,
      or_false, addV] at hv
    rcases hv with rfl | rfl | rfl | rfl | rfl | rfl | rfl | rfl <;>
      exact ⟨by linarith, by linarith, by linarith, by linarith, by linarith, by linarith⟩
  · simp only [List.map_cons, List.map_nil, List.mem_cons, List.not_mem_nil,
      or_false, addV]
    left
    simp only [Prod.mk.injEq]
    exact ⟨by ring, by ring, by ring⟩
  · simp only [List.map_cons, List.map_nil, List.mem_cons, List.not_mem_nil,
      or_false, addV]
    right; right; right; right; right; right; right
    simp only [Prod.mk.injEq]
    exact ⟨by ring, by ring, by ring⟩

/-- Witness for C1 at the concrete box 2 x 2 x 2 placed at (1,2,3). -/
theorem box_bbox_extents_w :
    (0 : ℚ) < 2 ∧ boxSpans 2 2 2 (0, 0, 0, 255) (1, 2, 3) :=
  ⟨by norm_num, box_bbox_extents 2 2 2 (0, 0, 0, 255) (1, 2, 3)
    (by norm_num) (by norm_num) (by norm_num)⟩

/-- Modelled from the spec, section 4.1: trimesh.creation.cylinder is library
code absent from src/.  A solid of revolution with sec flat side faces plus
two end caps: bottom rim vertices k, top rim vertices sec + k, then the two
cap centers.  trig k supplies the exact values of (cos, sin) at angle k. -/
def cylVertices (r h : ℚ) (sec : ℕ) (trig : ℕ → ℚ × ℚ) : List Vec3 :=
  ((List.range sec).map fun k => ((r * (trig k).1, r * (trig k).2, -(h/2)) : Vec3))
  ++ ((List.range sec).map fun k => ((r * (trig k).1, r * (trig k).2, h/2) : Vec3))
  ++ [(0, 0, -(h/2)), (0, 0, h/2)]

/-- The sec flat rectangular side faces of the cylinder, one per section. -/
def cylSideQuads (sec : ℕ) : List (ℕ × ℕ × ℕ × ℕ) :=
  (List.range sec).map fun k => (k, (k+1) % sec, sec + (k+1) % sec, sec + k)

/-- Split one rectangular face into its two triangles. -/
def quadTris (q : ℕ × ℕ × ℕ × ℕ) : List (ℕ × ℕ × ℕ) :=
  [(q.1, q.2.1, q.2.2.1), (q.1, q.2.2.1, q.2.2.2)]

/-- Triangulate a list of rectangular faces. -/
def triangulate : List (ℕ × ℕ × ℕ × ℕ) → List (ℕ × ℕ × ℕ)
  | [] => []
  | q :: rest => quadTris q ++ triangulate rest

/-- All triangles of the cylinder: the triangulated side faces, then the
bottom cap fan around center 2*sec, then the top cap fan around 2*sec+1. -/
def cylFaces (sec : ℕ) : List (ℕ × ℕ × ℕ) :=
  triangulate (cylSideQuads sec)
  ++ ((List.range sec).map fun k => (2*sec, (k+1) % sec, k))
  ++ ((List.range sec).map fun k => (2*sec + 1, sec + k, sec + (k+1) % sec))

/-- trimesh.creation.cylinder(radius=r, height=h, sections=sec), axis along
the local z axis, centered at the origin. -/
def cylinderMesh (r h : ℚ) (sec : ℕ) (trig : ℕ → ℚ × ℚ) : Mesh :=
  ⟨cylVertices r h sec trig, cylFaces sec, []⟩

/-- ccyl from the source, line 66: cylinder(radius=r, height=h, sections=sec),
apply_translation(pos), then face_colors = color.  No argument validation. -/
def ccyl (r h : ℚ) (color : Color) (pos : Vec3) (sec : ℕ)
    (trig : ℕ → ℚ × ℚ) : Mesh :=
  setFaceColors color (applyTranslation pos (cylinderMesh r h sec trig))

/-- trimesh.transformations.rotation_matrix(theta, [1,0,0]) acting on a point,
with c and s the exact values of cos theta and sin theta. -/
def rotationX (c s : ℚ) (v : Vec3) : Vec3 :=
  (v.1, c * v.2.1 - s * v.2.2, s * v.2.1 + c * v.2.2)

/-- rot_to_yup from main, line 836: rotation_matrix(-pi/2, [1,0,0]), whose
cosine is 0 and whose sine is -1. -/
def rotToYup : Vec3 → Vec3 := rotationX 0 (-1)

/-- rot_x from build_board, line 378: rotation_matrix(pi/2, [1,0,0]), whose
cosine is 0 and whose sine is 1. -/
def rotX90 : Vec3 → Vec3 := rotationX 0 1

/-- The half turn about the x axis, cosine -1 and sine 0. -/
def rot180X : Vec3 → Vec3 := rotationX (-1) 0

/-- The conversion loop of main, lines 837 to 838: apply rot_to_yup to the
vertices of every mesh of the list, once each. -/
def convertUpAxis (ms : List Mesh) : List Mesh :=
  ms.map (mapVerts rotToYup)

/-- Little endian base 10 digits of i, zero extended to width 3, as the
format string 03d does (zero extension never truncates, so larger ordinals
keep all their digits). -/
def pad3 (i : ℕ) : List ℕ :=
  Nat.digits 10 i ++ List.replicate (3 - (Nat.digits 10 i).length) 0

/-- The node name generated in main, line 842: the letter p (code 112)
followed by the zero padded decimal ordinal, most significant digit first. -/
def nodeName (i : ℕ) : List ℕ :=
  112 :: (pad3 i).reverse

/-- A scene: the ordered list of named parts. -/
abbrev Scene := List (List ℕ × Mesh)

/-- The scene built by main, lines 840 to 842: the converted meshes in
order, each under its generated ordinal node name. -/
def mainScene (ms : List Mesh) : Scene :=
  (convertUpAxis ms).enum.map fun p => (nodeName p.1, p.2)

/-- Modelled from the spec, section 4.4: the addPart contract of the scene
builder, whose implementation is trimesh library code absent from src/.
Appending under an existing name fails with DuplicateName and produces no
scene; otherwise the part is appended at the end. -/
def addPart (s : Scene) (m : Mesh) (n : List ℕ) : Except String Scene :=
  if n ∈ s.map Prod.fst then Except.error "DuplicateName"
  else Except.ok (s ++ [(n, m)])

/-- Board width, from build_board line 96. -/
def BW : ℚ := 214

/-- Board height, from build_board line 96. -/
def BH : ℚ := 150

/-- Board thickness, from build_board line 96. -/
def BT : ℚ := 1.535

/-- Top surface height, from build_board line 97. -/
def Z0 : ℚ := BT / 2

/-- Bottom surface height, from build_board line 98. -/
def ZB : ℚ := -BT / 2

/-- Gold pin color from the palette. -/
def C_GOLD : Color := (210, 175, 55, 255)

/-- SMA gold color from the palette. -/
def C_SMA_GOLD : Color := (200, 165, 40, 255)

/-- Barrel jack color from the palette. -/
def C_BARREL : Color := (45, 45, 48, 255)

/-- MLCC capacitor color from the palette. -/
def C_CAP_BROWN : Color := (100, 70, 40, 255)

/-- Tantalum capacitor color from the palette. -/
def C_CAP_GRAY : Color := (75, 75, 78, 255)

/-- Chip resistor color from the palette. -/
def C_RESISTOR : Color := (20, 20, 22, 255)

/-- Via copper color from the palette. -/
def C_VIA : Color := (170, 150, 75, 255)

/-- Barrel jack x position, build_board line 374. -/
def bjX : ℚ := BW - 8

/-- Barrel jack y position, build_board line 375. -/
def bjY : ℚ := BH + 2

/-- Barrel jack z position, build_board line 376. -/
def bjZ : ℚ := Z0 + 5.5

/-- The barrel of the DC jack, build_board lines 379 to 383: cylinder, then
apply_transform with rot_x, then apply_translation, then color. -/
def barrel (trig : ℕ → ℚ × ℚ) : Mesh :=
  setFaceColors C_BARREL (applyTranslation (bjX, bjY + 5, bjZ)
    (mapVerts rotX90 (cylinderMesh 5.5 14 24 trig)))

/-- The dark bore of the DC jack, build_board lines 385 to 389. -/
def barrelHole (trig : ℕ → ℚ × ℚ) : Mesh :=
  setFaceColors (15, 15, 15, 255) (applyTranslation (bjX, bjY + 8, bjZ)
    (mapVerts rotX90 (cylinderMesh 2.5 12 16 trig)))

/-- The center pin of the DC jack, build_board lines 391 to 395. -/
def barrelPin (trig : ℕ → ℚ × ℚ) : Mesh :=
  setFaceColors C_GOLD (applyTranslation (bjX, bjY + 7, bjZ)
    (mapVerts rotX90 (cylinderMesh 1 8 12 trig)))

/-- The SMA connector body at x, build_board lines 420 to 424. -/
def smaBody (x : ℚ) (trig : ℕ → ℚ × ℚ) : Mesh :=
  setFaceColors C_SMA_GOLD (applyTranslation (x, BH + 4, Z0 + 5)
    (mapVerts rotX90 (cylinderMesh 3.2 9.5 6 trig)))

/-- The SMA center pin at x, build_board lines 426 to 430. -/
def smaPin (x : ℚ) (trig : ℕ → ℚ × ℚ) : Mesh :=
  setFaceColors C_GOLD (applyTranslation (x, BH + 9, Z0 + 5)
    (mapVerts rotX90 (cylinderMesh 0.65 5 12 trig)))

/-- The SMA insulator ring at x, build_board lines 432 to 436. -/
def smaIns (x : ℚ) (trig : ℕ → ℚ × ℚ) : Mesh :=
  setFaceColors (240, 240, 240, 255) (applyTranslation (x, BH + 6, Z0 + 5)
    (mapVerts rotX90 (cylinderMesh 2 1.5 16 trig)))

/-- A list fixed by a map is fixed pointwise. -/
theorem map_fixed_pointwise {α : Type} (f : α → α) :
    ∀ l : List α, l.map f = l → ∀ x ∈ l, f x = x := by
  intro l
  induction l with
  | nil => intro _ x hx; exact absurd hx (List.not_mem_nil x)
  | cons a t ih =>
      intro h x hx
      rw [List.map_cons, List.cons.injEq] at h
      rcases List.mem_cons.mp hx with rfl | hxt
      · exact h.1
      · exact ih h.2 x hxt

/-- Explicit form of the up axis conversion on a point. -/
theorem rotToYup_apply (v : Vec3) : rotToYup v = (v.1, v.2.2, -v.2.1) := by
  obtain ⟨x, y, z⟩ := v
  simp only [rotToYup, rotationX, Prod.mk.injEq]
  exact ⟨by trivial, by ring, by ring⟩

/-- Explicit form of the half turn on a point. -/
theorem rot180X_apply (v : Vec3) : rot180X v = (v.1, -v.2.1, -v.2.2) := by
  obtain ⟨x, y, z⟩ := v
  simp only [rot180X, rotationX, Prod.mk.injEq]
  exact ⟨by trivial, by ring, by ring⟩

/-- The conversion applied twice is the half turn about the x axis. -/
theorem rotToYup_twice (v : Vec3) : rotToYup (rotToYup v) = rot180X v := by
  obtain ⟨x, y, z⟩ := v
  simp only [rotToYup, rot180X, rotationX, Prod.mk.injEq]
  exact ⟨by trivial, by ring, by ring⟩

/-- A point fixed by the conversion lies on the x axis. -/
theorem rotToYup_fixed {u : Vec3} (h : rotToYup u = u) : u.2.1 = 0 ∧ u.2.2 = 0 := by
  obtain ⟨x, y, z⟩ := u
  rw [rotToYup_apply] at h
  simp only [Prod.mk.injEq] at h
  obtain ⟨-, h2, h3⟩ := h
  constructor <;> · simp only []; linarith

/-- A point fixed by the half turn lies on the x axis. -/
theorem rot180X_fixed {u : Vec3} (h : rot180X u = u) : u.2.1 = 0 ∧ u.2.2 = 0 := by
  obtain ⟨x, y, z⟩ := u
  rw [rot180X_apply] at h
  simp only [Prod.mk.injEq] at h
  obtain ⟨-, h2, h3⟩ := h
  constructor <;> · simp only []; linarith

/-- Composition law for vertex maps. -/
theorem mapVerts_comp (f g : Vec3 → Vec3) (m : Mesh) :
    mapVerts f (mapVerts g m) = mapVerts (fun v => f (g v)) m := by
  cases m
  simp [mapVerts, List.map_map, Function.comp]

/-- A mesh fixed by a vertex map has every vertex fixed. -/
theorem mapVerts_eq_self {f : Vec3 → Vec3} {m : Mesh} (h : mapVerts f m = m) :
    ∀ v ∈ m.vertices, f v = v := by
  intro v hv
  have hl : m.vertices.map f = m.vertices := congrArg Mesh.vertices h
  exact map_fixed_pointwise f _ hl v hv

/-- C2: main applies the fixed conversion rotation, -90 degrees about the
x axis with cosine 0 and sine -1, to the vertex positions of every part,
exactly once per part, after all parts are placed (the input list) and
before export (the scene handed to the exporter holds exactly the once
converted parts in order); faces and colors are untouched. -/
theorem upaxis_once_per_part :
    (∀ ms : List Mesh, (mainScene ms).map Prod.snd = ms.map (mapVerts rotToYup)) ∧
    (∀ ms : List Mesh, (mainScene ms).length = ms.length) ∧
    (∀ m : Mesh, (mapVerts rotToYup m).vertices = m.vertices.map rotToYup ∧
      (mapVerts rotToYup m).faces = m.faces ∧
      (mapVerts rotToYup m).faceColors = m.faceColors) ∧
    (∀ v : Vec3, rotToYup v = (v.1, v.2.2, -v.2.1)) := by
  refine ⟨?_, ?_, ?_, rotToYup_apply⟩
  · intro ms
    rw [mainScene, List.map_map]
    have hc : (Prod.snd ∘ fun p : ℕ × Mesh => (nodeName p.1, p.2)) = Prod.snd := rfl
    rw [hc, List.enum_map_snd, convertUpAxis]
  · intro ms
    rw [mainScene, List.length_map, List.enum_length, convertUpAxis, List.length_map]
  · intro m
    exact ⟨rfl, rfl, rfl⟩

/-- C3 counterexample: on the empty scene one application of the conversion
and two applications both coincide with the identity, so the claim that for
every scene one application, two applications and the identity are pairwise
distinct is false. -/
theorem upaxis_identity_on_empty_scene :
    convertUpAxis ([] : List Mesh) = ([] : List Mesh) ∧
    convertUpAxis (convertUpAxis ([] : List Mesh)) = ([] : List Mesh) :=
  ⟨rfl, rfl⟩

/-- C3 amended: applying the conversion twice equals the half turn about the
x axis on every scene, and on every scene with at least one vertex off the
rotation axis, one application, two applications and the identity are
pairwise distinct. -/
theorem upaxis_double_is_half_turn :
    (∀ ms : List Mesh,
      convertUpAxis (convertUpAxis ms) = ms.map (mapVerts rot180X)) ∧
    (∀ v : Vec3, rot180X v = (v.1, -v.2.1, -v.2.2)) ∧
    (∀ ms : List Mesh,
      (∃ m ∈ ms, ∃ v ∈ m.vertices, v.2.1 ≠ 0 ∨ v.2.2 ≠ 0) →
        convertUpAxis ms ≠ ms ∧
        convertUpAxis (convertUpAxis ms) ≠ ms ∧
        convertUpAxis (convertUpAxis ms) ≠ convertUpAxis ms) := by
  have hsq : ∀ ms : List Mesh,
      convertUpAxis (convertUpAxis ms) = ms.map (mapVerts rot180X) := by
    intro ms
    rw [convertUpAxis, convertUpAxis, List.map_map]
    have hfun : (mapVerts rotToYup ∘ mapVerts rotToYup) = mapVerts rot180X := by
      funext m
      rw [Function.comp_apply, mapVerts_comp]
      have hr : (fun v => rotToYup (rotToYup v)) = rot180X := funext rotToYup_twice
      rw [hr]
    rw [hfun]
  refine ⟨hsq, rot180X_apply, ?_⟩
  rintro ms ⟨m, hm, v, hv, hne⟩
  refine ⟨?_, ?_, ?_⟩
  · intro heq
    have heq' : ms.map (mapVerts rotToYup) = ms := heq
    have hfix := mapVerts_eq_self (map_fixed_pointwise _ ms heq' m hm) v hv
    have := rotToYup_fixed hfix
    tauto
  · intro heq
    have heq' : ms.map (mapVerts rot180X) = ms := (hsq ms).symm.trans heq
    have hfix := mapVerts_eq_self (map_fixed_pointwise _ ms heq' m hm) v hv
    have := rot180X_fixed hfix
    tauto
  · intro heq
    have heq' : (convertUpAxis ms).map (mapVerts rotToYup) = convertUpAxis ms := heq
    have hmem : mapVerts rotToYup m ∈ convertUpAxis ms :=
      List.mem_map_of_mem (mapVerts rotToYup) hm
    have hvm : rotToYup v ∈ (mapVerts rotToYup m).vertices :=
      List.mem_map_of_mem rotToYup hv
    have hfix := mapVerts_eq_self
      (map_fixed_pointwise _ (convertUpAxis ms) heq' _ hmem) _ hvm
    have hax := rotToYup_fixed hfix
    rw [rotToYup_apply] at hax
    simp only [neg_eq_zero] at hax
    tauto

/-- Witness for C3 amended at a one vertex scene off the rotation axis. -/
theorem upaxis_double_is_half_turn_w :
    convertUpAxis [Mesh.mk [(0, 1, 0)] [] []] ≠ [Mesh.mk [(0, 1, 0)] [] []] ∧
    convertUpAxis (convertUpAxis [Mesh.mk [(0, 1, 0)] [] []]) ≠
      [Mesh.mk [(0, 1, 0)] [] []] ∧
    convertUpAxis (convertUpAxis [Mesh.mk [(0, 1, 0)] [] []]) ≠
      convertUpAxis [Mesh.mk [(0, 1, 0)] [] []] :=
  upaxis_double_is_half_turn.2.2 _
    ⟨Mesh.mk [(0, 1, 0)] [] [], by simp, (0, 1, 0), by simp, Or.inl (by norm_num)⟩

/-- Reading the zero extended digit block back gives the ordinal: zero
extension adds nothing to the value. -/
theorem ofDigits_pad3 (i : ℕ) : Nat.ofDigits 10 (pad3 i) = i := by
  have hz : ∀ k : ℕ, Nat.ofDigits 10 (List.replicate k 0) = 0 := by
    intro k
    induction k with
    | zero => rfl
    | succ n ih => simp [List.replicate_succ, Nat.ofDigits_cons, ih]
  rw [pad3, Nat.ofDigits_append, Nat.ofDigits_digits, hz]
  ring

/-- The generated ordinal node names are injective. -/
theorem nodeName_injective : Function.Injective nodeName := by
  intro i j hij
  rw [nodeName, nodeName, List.cons.injEq] at hij
  have hpad : pad3 i = pad3 j := List.reverse_injective hij.2
  have := congrArg (Nat.ofDigits 10) hpad
  rwa [ofDigits_pad3, ofDigits_pad3] at this

/-- C6: adding a part under a name already bound in the scene fails with
DuplicateName and yields no modified scene, adding under a fresh name
appends exactly one part at the end, and the zero padded ordinal names
generated by main are pairwise distinct within the scene. -/
theorem addPart_duplicate_and_names :
    (∀ (s : Scene) (m : Mesh) (n : List ℕ),
      n ∈ s.map Prod.fst → addPart s m n = Except.error "DuplicateName") ∧
    (∀ (s : Scene) (m : Mesh) (n : List ℕ),
      n ∉ s.map Prod.fst → addPart s m n = Except.ok (s ++ [(n, m)])) ∧
    Function.Injective nodeName ∧
    (∀ ms : List Mesh, ((mainScene ms).map Prod.fst).Nodup) := by
  refine ⟨?_, ?_, nodeName_injective, ?_⟩
  · intro s m n hn
    rw [addPart, if_pos hn]
  · intro s m n hn
    rw [addPart, if_neg hn]
  · intro ms
    have h1 : ((mainScene ms).map Prod.fst) =
        (List.range (convertUpAxis ms).length).map nodeName := by
      rw [mainScene, List.map_map]
      have hc : (Prod.fst ∘ fun p : ℕ × Mesh => (nodeName p.1, p.2)) =
          nodeName ∘ Prod.fst := rfl
      rw [hc, ← List.map_map, List.enum_map_fst]
    rw [h1]
    exact List.Nodup.map nodeName_injective (List.nodup_range _)

/-- Witness for C6: re-adding the name of part zero is refused. -/
theorem addPart_duplicate_and_names_w :
    addPart [(nodeName 0, Mesh.mk [] [] [])] (Mesh.mk [] [] []) (nodeName 0) =
      Except.error "DuplicateName" :=
  addPart_duplicate_and_names.1 _ _ _ (by simp)

/-- Modelled from the spec, section 4.6 and section 6: the binary container
serializer invoked through scene.export in main, line 845, is library code
absent from src/.  A 32 bit integer encoded as 4 little endian bytes. -/
def u32le (n : ℕ) : List ℕ :=
  [n % 256, n / 256 % 256, n / 65536 % 256, n / 16777216 % 256]

/-- Decode 4 little endian bytes back to the integer they stand for. -/
def decodeU32le (bs : List ℕ) : ℕ :=
  bs.foldr (fun b acc => b + 256 * acc) 0

/-- Zero pad a chunk payload to the next 4 byte boundary. -/
def pad4 (d : List ℕ) : List ℕ :=
  d ++ List.replicate ((4 - d.length % 4) % 4) 0

/-- Modelled from the spec: the container magic identifier glTF. -/
def glbMagic : ℕ := 0x46546C67

/-- Modelled from the spec: the container format version. -/
def glbVersion : ℕ := 2

/-- Modelled from the spec: the type tag of the JSON chunk. -/
def jsonChunkType : ℕ := 0x4E4F534A

/-- Modelled from the spec: the type tag of the binary chunk. -/
def binChunkType : ℕ := 0x004E4942

/-- A length prefixed chunk: padded payload length, type tag, padded payload. -/
def glbChunk (ty : ℕ) (d : List ℕ) : List ℕ :=
  u32le (pad4 d).length ++ u32le ty ++ pad4 d

/-- The total byte length of the container file. -/
def glbTotalLength (j b : List ℕ) : ℕ :=
  12 + (glbChunk jsonChunkType j).length + (glbChunk binChunkType b).length

/-- Modelled from the spec: the whole binary container written by
exportBinary, given the JSON chunk payload and the binary chunk payload of
the scene: 12 byte header of magic, version and total length, then the JSON
chunk, then the binary chunk. -/
def glbFile (j b : List ℕ) : List ℕ :=
  u32le glbMagic ++ u32le glbVersion ++ u32le (glbTotalLength j b)
  ++ glbChunk jsonChunkType j ++ glbChunk binChunkType b

/-- C4: for all chunk payloads the exported file is a fixed 12 byte header
holding the magic identifier, the format version and the total byte length,
followed by the length prefixed JSON chunk and then the length prefixed
binary chunk; every integer field is 4 little endian bytes, and each chunk
payload is zero padded to a 4 byte boundary. -/
theorem glb_container_layout :
    (∀ j b : List ℕ, glbFile j b =
      (u32le glbMagic ++ u32le glbVersion ++ u32le (glbTotalLength j b))
      ++ glbChunk jsonChunkType j ++ glbChunk binChunkType b) ∧
    (∀ j b : List ℕ,
      (u32le glbMagic ++ u32le glbVersion ++ u32le (glbTotalLength j b)).length = 12) ∧
    (∀ j b : List ℕ, (glbFile j b).length = glbTotalLength j b) ∧
    (∀ ty d, glbChunk ty d = u32le (pad4 d).length ++ u32le ty ++ pad4 d) ∧
    (∀ d : List ℕ, pad4 d = d ++ List.replicate ((4 - d.length % 4) % 4) 0) ∧
    (∀ d : List ℕ, (pad4 d).length % 4 = 0) ∧
    (∀ n : ℕ, decodeU32le (u32le n) = n % 4294967296) := by
  refine ⟨?_, ?_, ?_, fun _ _ => rfl, fun _ => rfl, ?_, ?_⟩
  · intro j b
    rw [glbFile, List.append_assoc, List.append_assoc]
  · intro j b
    rfl
  · intro j b
    simp only [glbFile, glbChunk, glbTotalLength, List.length_append, u32le,
      List.length_cons, List.length_nil]
  · intro d
    simp only [pad4, List.length_append, List.length_replicate]
    omega
  · intro n
    simp only [u32le, decodeU32le, List.foldr_cons, List.foldr_nil]
    omega

/-- C5 counterexample: called with an invalid negative width, cbox does not
fail, it returns a full 8 vertex 12 face solid; called with the invalid
section count 2, ccyl likewise returns a solid.  There is no InvalidDimension
error anywhere in the code. -/
theorem primitive_no_rejection_cex :
    (cbox (-1) 1 1 (0, 0, 0, 255) (0, 0, 0)).vertices.length = 8 ∧
    (cbox (-1) 1 1 (0, 0, 0, 255) (0, 0, 0)).faces.length = 12 ∧
    (ccyl 0 1 (0, 0, 0, 255) (0, 0, 0) 2 (fun _ => (1, 0))).vertices.length = 6 :=
  ⟨rfl, rfl, rfl⟩

/-- C5 amended: cbox and ccyl perform no argument validation at all; for
every argument, including non positive extents, non positive radius or
height, and section counts below 3, they return a solid mesh instead of
failing. -/
theorem primitive_total_no_validation :
    (∀ (w h d : ℚ) (c : Color) (p : Vec3),
      (cbox w h d c p).vertices.length = 8 ∧
      (cbox w h d c p).faces.length = 12 ∧
      (cbox w h d c p).faceColors = List.replicate 12 c) ∧
    (∀ (r hh : ℚ) (c : Color) (p : Vec3) (sec : ℕ) (trig : ℕ → ℚ × ℚ),
      (ccyl r hh c p sec trig).vertices.length = 2 * sec + 2) := by
  constructor
  · intro w h d c p
    exact ⟨rfl, rfl, rfl⟩
  · intro r hh c p sec trig
    simp only [ccyl, setFaceColors, applyTranslation, cylinderMesh, cylVertices,
      List.length_map, List.length_append, List.length_range, List.length_cons,
      List.length_nil]
    omega

/-- Triangulating n rectangles yields 2n triangles. -/
theorem triangulate_length : ∀ l : List (ℕ × ℕ × ℕ × ℕ),
    (triangulate l).length = 2 * l.length := by
  intro l
  induction l with
  | nil => rfl
  | cons q rest ih =>
      rw [triangulate, List.length_append, ih, quadTris, List.length_cons]
      simp only [List.length_cons, List.length_nil, List.length_singleton]
      ring

/-- The vertex count of the cylinder primitive. -/
theorem ccyl_vertices_length (r h : ℚ) (c : Color) (p : Vec3) (sec : ℕ)
    (trig : ℕ → ℚ × ℚ) : (ccyl r h c p sec trig).vertices.length = 2 * sec + 2 := by
  simp only [ccyl, setFaceColors, applyTranslation, cylinderMesh, cylVertices,
    List.length_map, List.length_append, List.length_range, List.length_cons,
    List.length_nil]
  ring

/-- The triangle count of the cylinder primitive. -/
theorem ccyl_faces_length (r h : ℚ) (c : Color) (p : Vec3) (sec : ℕ)
    (trig : ℕ → ℚ × ℚ) : (ccyl r h c p sec trig).faces.length = 4 * sec := by
  simp only [ccyl, setFaceColors, applyTranslation, cylinderMesh, cylFaces,
    List.length_append, triangulate_length, cylSideQuads, List.length_map,
    List.length_range]
  ring

/-- C7: for every section count at least 3 the cylinder has exactly sec flat
side faces, made of 2 triangles each inside the 4*sec triangle list, and
both the vertex count and the triangle count of ccyl are strictly
increasing in the section count. -/
theorem cylinder_counts (r h : ℚ) (c : Color) (p : Vec3)
    (trig trig' : ℕ → ℚ × ℚ) (sec sec' : ℕ)
    (h3 : 3 ≤ sec) (hlt : sec < sec') :
    (cylSideQuads sec).length = sec ∧
    (ccyl r h c p sec trig).faces =
      (triangulate (cylSideQuads sec)
        ++ ((List.range sec).map fun k => (2*sec, (k+1) % sec, k))
        ++ ((List.range sec).map fun k => (2*sec + 1, sec + k, sec + (k+1) % sec))) ∧
    (ccyl r h c p sec trig).vertices.length = 2 * sec + 2 ∧
    (ccyl r h c p sec trig).faces.length = 4 * sec ∧
    (ccyl r h c p sec trig).vertices.length <
      (ccyl r h c p sec' trig').vertices.length ∧
    (ccyl r h c p sec trig).faces.length <
      (ccyl r h c p sec' trig').faces.length := by
  refine ⟨?_, rfl, ccyl_vertices_length r h c p sec trig,
    ccyl_faces_length r h c p sec trig, ?_, ?_⟩
  · rw [cylSideQuads, List.length_map, List.length_range]
  · rw [ccyl_vertices_length, ccyl_vertices_length]
    omega
  · rw [ccyl_faces_length, ccyl_faces_length]
    omega

/-- Witness for C7 at section counts 3 and 4. -/
theorem cylinder_counts_w :
    3 ≤ 3 ∧ 3 < 4 ∧
    (cylSideQuads 3).length = 3 ∧
    (ccyl 1 1 (0, 0, 0, 255) (0, 0, 0) 3 (fun _ => (1, 0))).vertices.length = 2 * 3 + 2 ∧
    (ccyl 1 1 (0, 0, 0, 255) (0, 0, 0) 3 (fun _ => (1, 0))).vertices.length <
      (ccyl 1 1 (0, 0, 0, 255) (0, 0, 0) 4 (fun _ => (1, 0))).vertices.length := by
  have hmain := cylinder_counts 1 1 (0, 0, 0, 255) (0, 0, 0)
    (fun _ => (1, 0)) (fun _ => (1, 0)) 3 4 (by omega) (by omega)
  exact ⟨by omega, by omega, hmain.1, hmain.2.2.1, hmain.2.2.2.2.1⟩

/-- Explicit form of the plus 90 degree rotation about x on a point. -/
theorem rotX90_apply (v : Vec3) : rotX90 v = (v.1, -v.2.2, v.2.1) := by
  obtain ⟨x, y, z⟩ := v
  simp only [rotX90, rotationX, Prod.mk.injEq]
  exact ⟨by trivial, by ring, by ring⟩

/-- Rotation first then translation differs from translation first then
rotation whenever the translation moves the rotation plane off itself. -/
theorem rotX90_order_matters (t : Vec3) (hy : t.2.1 + t.2.2 ≠ 0) (v : Vec3) :
    addV (rotX90 v) t ≠ rotX90 (addV v t) := by
  obtain ⟨x, y, z⟩ := v
  obtain ⟨tx, ty, tz⟩ := t
  intro h
  rw [rotX90_apply, rotX90_apply] at h
  simp only [addV, Prod.mk.injEq] at h
  simp only [] at hy
  obtain ⟨-, h2, h3⟩ := h
  exact hy (by linarith)

/-- The translated vertex map of a rotated then translated part. -/
def placeRT (t : Vec3) (v : Vec3) : Vec3 := addV (rotX90 v) t

/-- C8: every part built with both a rotation and a translation, the three
solids of the barrel jack and the three solids of each SMA connector, has
vertex positions equal to translate(rotate(v)) for each original vertex v of
its primitive, and for each of those parts this differs from
rotate(translate(v)) at every vertex. -/
theorem rotate_then_translate :
    (∀ trig, (barrel trig).vertices =
      (cylinderMesh 5.5 14 24 trig).vertices.map (placeRT (bjX, bjY + 5, bjZ))) ∧
    (∀ trig, (barrelHole trig).vertices =
      (cylinderMesh 2.5 12 16 trig).vertices.map (placeRT (bjX, bjY + 8, bjZ))) ∧
    (∀ trig, (barrelPin trig).vertices =
      (cylinderMesh 1 8 12 trig).vertices.map (placeRT (bjX, bjY + 7, bjZ))) ∧
    (∀ x trig, (smaBody x trig).vertices =
      (cylinderMesh 3.2 9.5 6 trig).vertices.map (placeRT (x, BH + 4, Z0 + 5))) ∧
    (∀ x trig, (smaPin x trig).vertices =
      (cylinderMesh 0.65 5 12 trig).vertices.map (placeRT (x, BH + 9, Z0 + 5))) ∧
    (∀ x trig, (smaIns x trig).vertices =
      (cylinderMesh 2 1.5 16 trig).vertices.map (placeRT (x, BH + 6, Z0 + 5))) ∧
    (∀ v, placeRT (bjX, bjY + 5, bjZ) v ≠ rotX90 (addV v (bjX, bjY + 5, bjZ))) ∧
    (∀ v, placeRT (bjX, bjY + 8, bjZ) v ≠ rotX90 (addV v (bjX, bjY + 8, bjZ))) ∧
    (∀ v, placeRT (bjX, bjY + 7, bjZ) v ≠ rotX90 (addV v (bjX, bjY + 7, bjZ))) ∧
    (∀ x v, placeRT (x, BH + 4, Z0 + 5) v ≠ rotX90 (addV v (x, BH + 4, Z0 + 5))) ∧
    (∀ x v, placeRT (x, BH + 9, Z0 + 5) v ≠ rotX90 (addV v (x, BH + 9, Z0 + 5))) ∧
    (∀ x v, placeRT (x, BH + 6, Z0 + 5) v ≠ rotX90 (addV v (x, BH + 6, Z0 + 5))) := by
  refine ⟨?_, ?_, ?_, ?_, ?_, ?_,
    fun v => rotX90_order_matters _ ?_ v,
    fun v => rotX90_order_matters _ ?_ v,
    fun v => rotX90_order_matters _ ?_ v,
    fun x v => rotX90_order_matters _ ?_ v,
    fun x v => rotX90_order_matters _ ?_ v,
    fun x v => rotX90_order_matters _ ?_ v⟩
  · intro trig
    simp [barrel, setFaceColors, applyTranslation, mapVerts, List.map_map,
      placeRT, Function.comp]
  · intro trig
    simp [barrelHole, setFaceColors, applyTranslation, mapVerts, List.map_map,
      placeRT, Function.comp]
  · intro trig
    simp [barrelPin, setFaceColors, applyTranslation, mapVerts, List.map_map,
      placeRT, Function.comp]
  · intro x trig
    simp [smaBody, setFaceColors, applyTranslation, mapVerts, List.map_map,
      placeRT, Function.comp]
  · intro x trig
    simp [smaPin, setFaceColors, applyTranslation, mapVerts, List.map_map,
      placeRT, Function.comp]
  · intro x trig
    simp [smaIns, setFaceColors, applyTranslation, mapVerts, List.map_map,
      placeRT, Function.comp]
  · norm_num [bjY, bjZ, Z0, BT, BH]
  · norm_num [bjY, bjZ, Z0, BT, BH]
  · norm_num [bjY, bjZ, Z0, BT, BH]
  · norm_num [Z0, BT, BH]
  · norm_num [Z0, BT, BH]
  · norm_num [Z0, BT, BH]

/-- Witness for C8 at the origin vertex of the barrel jack placement. -/
theorem rotate_then_translate_w :
    placeRT (bjX, bjY + 5, bjZ) (0, 0, 0) ≠
      rotX90 (addV (0, 0, 0) (bjX, bjY + 5, bjZ)) :=
  rotate_then_translate.2.2.2.2.2.2.1 (0, 0, 0)

/-- Modelled from the spec, section 4.2: the default silver ring color. -/
def ringColor : Color := (192, 192, 192, 255)

/-- Modelled from the spec, section 4.2: the tessellation of the ring
cylinders. -/
def ringSections : ℕ := 24

/-- Modelled from the spec, section 8: the fixed radial clearance added to
the inner radius to obtain the outer cylinder radius. -/
def ringRadialClearance : ℚ := 0.8

/-- Modelled from the spec, section 4.2: the fixed clearance added to the
outer cylinder height. -/
def ringOuterHeightClearance : ℚ := 0.2

/-- Modelled from the spec, section 4.2: the larger clearance added to the
inner cylinder height so the bore pierces both ends. -/
def ringInnerHeightClearance : ℚ := 1

/-- Modelled from the spec, sections 4.2 and 8: makeRing appears in no file
under src/.  The boolean backend is passed explicitly: some sub when true
subtraction is available, none when it is not.  The outer radius is the
inner radius plus the fixed radial clearance, as the spec testable property
states. -/
def makeRing (rIn _rOut h : ℚ) (p : Vec3) (trig : ℕ → ℚ × ℚ)
    (subtractBackend : Option (Mesh → Mesh → Mesh)) : Mesh :=
  match subtractBackend with
  | some sub =>
      sub (ccyl (rIn + ringRadialClearance) (h + ringOuterHeightClearance)
             ringColor p ringSections trig)
          (ccyl rIn (h + ringInnerHeightClearance) ringColor p ringSections trig)
  | none =>
      ccyl (rIn + ringRadialClearance) (h + ringOuterHeightClearance)
        ringColor p ringSections trig

/-- C9: with the boolean backend available makeRing returns exactly the
subtraction of the inner cylinder from the outer cylinder, and with the
backend unavailable it returns the outer cylinder unmodified, a solid mesh
identical to ccyl with the outer radius, instead of failing. -/
theorem makeRing_fallback :
    (∀ (rIn rOut h : ℚ) (p : Vec3) (trig : ℕ → ℚ × ℚ),
      makeRing rIn rOut h p trig none =
        ccyl (rIn + ringRadialClearance) (h + ringOuterHeightClearance)
          ringColor p ringSections trig) ∧
    (∀ (rIn rOut h : ℚ) (p : Vec3) (trig : ℕ → ℚ × ℚ)
        (sub : Mesh → Mesh → Mesh),
      makeRing rIn rOut h p trig (some sub) =
        sub (ccyl (rIn + ringRadialClearance) (h + ringOuterHeightClearance)
               ringColor p ringSections trig)
            (ccyl rIn (h + ringInnerHeightClearance) ringColor p
               ringSections trig)) :=
  ⟨fun _ _ _ _ _ => rfl, fun _ _ _ _ _ _ => rfl⟩

/-- Modelled from the spec, section 9 design note: the global numpy pseudo
random generator is library state absent from src/.  It is abstracted as any
deterministic generator: a state, a seed function producing the state from
the seed constant alone, and a deterministic next function. -/
structure Rng where
  seed : ℕ → ℕ
  next : ℕ → ℕ × ℕ

/-- np.random.random(): a unit interval draw from the generator state. -/
def unitDraw (G : Rng) (s : ℕ) : ℚ × ℕ :=
  ((((G.next s).1 % 9007199254740992 : ℕ) : ℚ) / 9007199254740992, (G.next s).2)

/-- np.random.uniform(lo, hi). -/
def uniformDraw (G : Rng) (lo hi : ℚ) (s : ℕ) : ℚ × ℕ :=
  (lo + (hi - lo) * (unitDraw G s).1, (unitDraw G s).2)

/-- np.random.choice(l). -/
def choiceDraw (G : Rng) (l : List ℚ) (s : ℕ) : ℚ × ℕ :=
  (l.getD ((G.next s).1 % l.length) 0, (G.next s).2)

/-- Main IC x position, build_board line 160. -/
def cxIC : ℚ := BW * 0.42

/-- Main IC y position, build_board line 160. -/
def cyIC : ℚ := BH * 0.52

/-- SFP cage depth, build_board line 276. -/
def sfpD : ℚ := 58

/-- Expansion header x position, build_board line 485. -/
def expX : ℚ := BW - 52

/-- Expansion header y position, build_board line 486. -/
def expY : ℚ := BH - 48

/-- in_exclusion_zone from build_board lines 637 to 648. -/
def inExclusionZone (px py : ℚ) : Bool :=
  (decide (|px - cxIC| < 14) && decide (|py - cyIC| < 14)) ||
  (decide (py < 15) && decide (px < 150)) ||
  (decide (py < sfpD) && decide (px > 148)) ||
  decide (py > BH - 5) ||
  (decide (|px - expX| < 28) && decide (|py - expY| < 5))

/-- The capacitor position loop, build_board lines 651 to 655: n draws of a
uniform x in [8, BW-8] and a uniform y in [18, BH-6], keeping the points
outside the exclusion zones. -/
def capPositionsDraw (G : Rng) : ℕ → ℕ → List (ℚ × ℚ) × ℕ
  | 0, s => ([], s)
  | n + 1, s =>
      let px := uniformDraw G 8 (BW - 8) s
      let py := uniformDraw G 18 (BH - 6) px.2
      let rest := capPositionsDraw G n py.2
      if inExclusionZone px.1 py.1 then rest else ((px.1, py.1) :: rest.1, rest.2)

/-- The capacitor mesh loop, build_board lines 657 to 661: per kept position
a size drawn by choice, a color drawn by random against 0.25, and a cbox. -/
def capMeshes (G : Rng) : List (ℚ × ℚ) → ℕ → List Mesh × ℕ
  | [], s => ([], s)
  | q :: rest, s =>
      let sz := choiceDraw G [0.4, 0.6, 0.8, 1, 1.6, 2] s
      let hh := sz.1 * 0.45
      let u := unitDraw G sz.2
      let col := if u.1 > 0.25 then C_CAP_BROWN else C_CAP_GRAY
      let tail := capMeshes G rest u.2
      (cbox sz.1 (sz.1 * 0.55) hh col (q.1, q.2, Z0 + hh / 2) :: tail.1, tail.2)

/-- Section 24 of build_board, lines 633 to 661: np.random.seed(42), then 120
position draws, then meshes for the first 80 kept positions.  The incoming
generator state is discarded by the reseeding. -/
def capsSection (G : Rng) (_incoming : ℕ) : List Mesh × ℕ :=
  let s := G.seed 42
  let ps := capPositionsDraw G 120 s
  capMeshes G (ps.1.take 80) ps.2

/-- The resistor loop body, build_board lines 673 to 679. -/
def resistorLoop (G : Rng) : ℕ → ℕ → List Mesh × ℕ
  | 0, s => ([], s)
  | n + 1, s =>
      let rx := uniformDraw G 12 (BW - 12) s
      let ry := uniformDraw G 20 (BH - 8) rx.2
      if inExclusionZone rx.1 ry.1 then resistorLoop G n ry.2
      else
        let sz := choiceDraw G [0.4, 0.6, 1] ry.2
        let tail := resistorLoop G n sz.2
        (cbox sz.1 (sz.1 * 0.5) (sz.1 * 0.3) C_RESISTOR
          (rx.1, ry.1, Z0 + sz.1 * 0.15) :: tail.1, tail.2)

/-- Section 25 of build_board, lines 672 to 679: np.random.seed(99), then 50
resistor draws. -/
def resistorsSection (G : Rng) (_incoming : ℕ) : List Mesh × ℕ :=
  resistorLoop G 50 (G.seed 99)

/-- The via loop body, build_board lines 777 to 781. -/
def viaLoop (G : Rng) (trig : ℕ → ℚ × ℚ) : ℕ → ℕ → List Mesh × ℕ
  | 0, s => ([], s)
  | n + 1, s =>
      let vx := uniformDraw G 4 (BW - 4) s
      let vy := uniformDraw G 4 (BH - 4) vx.2
      let tail := viaLoop G trig n vy.2
      if inExclusionZone vx.1 vy.1 then tail
      else (ccyl 0.25 0.15 C_VIA (vx.1, vy.1, Z0 + 0.12) 8 trig :: tail.1, tail.2)

/-- Section 30 of build_board, lines 776 to 781: np.random.seed(77), then 150
via draws. -/
def viasSection (G : Rng) (trig : ℕ → ℚ × ℚ) (_incoming : ℕ) : List Mesh × ℕ :=
  viaLoop G trig 150 (G.seed 77)

/-- The bottom component loop body, build_board lines 819 to 825. -/
def bottomLoop (G : Rng) : ℕ → ℕ → List Mesh × ℕ
  | 0, s => ([], s)
  | n + 1, s =>
      let bx := uniformDraw G 15 (BW - 15) s
      let b2 := uniformDraw G 15 (BH - 15) bx.2
      if inExclusionZone bx.1 b2.1 then bottomLoop G n b2.2
      else
        let sz := choiceDraw G [0.6, 0.8, 1] b2.2
        let tail := bottomLoop G n sz.2
        (cbox sz.1 (sz.1 * 0.5) (sz.1 * 0.35) C_CAP_BROWN
          (bx.1, b2.1, ZB - sz.1 * 0.175) :: tail.1, tail.2)

/-- Section 33 of build_board, lines 818 to 825: np.random.seed(55), then 30
bottom side component draws. -/
def bottomSection (G : Rng) (_incoming : ℕ) : List Mesh × ℕ :=
  bottomLoop G 30 (G.seed 55)

/-- The four reseeded random sections run in their order inside build_board,
threading the generator state between them. -/
def randomSections (G : Rng) (trig : ℕ → ℚ × ℚ) (s0 : ℕ) :
    (List Mesh × List Mesh × List Mesh × List Mesh) × ℕ :=
  let a := capsSection G s0
  let b := resistorsSection G a.2
  let c := viasSection G trig b.2
  let d := bottomSection G c.2
  ((a.1, b.1, c.1, d.1), d.2)

/-- C10: for any deterministic generator and any two invocations, that is
any two incoming global generator states, the randomly placed capacitors,
resistors, scattered vias and bottom side components coincide, each section
and the whole chain alike, because every one of these sections reseeds the
generator with its fixed constant before drawing. -/
theorem reseeded_sections_deterministic :
    ∀ (G : Rng) (trig : ℕ → ℚ × ℚ) (s₁ s₂ : ℕ),
      capsSection G s₁ = capsSection G s₂ ∧
      resistorsSection G s₁ = resistorsSection G s₂ ∧
      viasSection G trig s₁ = viasSection G trig s₂ ∧
      bottomSection G s₁ = bottomSection G s₂ ∧
      randomSections G trig s₁ = randomSections G trig s₂ :=
  fun _ _ _ _ => ⟨rfl, rfl, rfl, rfl, rfl⟩

end EvbLan9692
